import Mathlib

/-
Verification of the secure-storage component of the repository
(src/src/utils/secureStorage.ts), a wrapper around the browser
localStorage that encrypts values at rest, supports an optional TTL,
and falls back to plain storage when cryptography fails.

The embedding is shallow:
  * localStorage is an association list of string keys to string values
    together with a per-key write-failure flag (quota / disabled storage);
    reads never fail, writes to a failing key model a thrown exception
    and return Except.error.
  * the composition this.encrypt(JSON.stringify(record)) is one function
    Crypto.encode : StoredData -> Option String, and the composition
    JSON.parse(this.decrypt(s)) is Crypto.decode : String -> Option StoredData;
    a none result models a thrown error (key-derivation failure, encryption
    failure, AEAD verification failure, or a JSON parse error), which the
    source catches.
  * Date.now() is an explicit natural-number parameter.
  * the promise-memoized key derivation (getEncryptionKey) is a small state
    machine with an explicit derivation counter, reflecting the
    single-threaded event-loop execution model.
JavaScript truthiness tests on numbers (expiresIn ? ... , expiresAt && ...)
are translated as the corresponding zero tests.
-/

namespace SecureStorage

/-- The record persisted per key, interface StoredData of secureStorage.ts:
a data string and an optional absolute expiry timestamp in epoch
milliseconds. -/
structure StoredData where
  data : String
  expiresAt : Option Nat
deriving DecidableEq

/-- Lookup in an association list of storage entries, modelling
localStorage.getItem: none when the key is absent. -/
def lookupEntry : List (String × String) → String → Option String
  | [], _ => none
  | (k, v) :: rest, key => if k = key then some v else lookupEntry rest key

/-- Removal from an association list of storage entries, modelling
localStorage.removeItem (a no-op on an absent key). -/
def eraseEntry : List (String × String) → String → List (String × String)
  | [], _ => []
  | (k, v) :: rest, key =>
    if k = key then eraseEntry rest key else (k, v) :: eraseEntry rest key

/-- The backing store (localStorage): entries, plus a flag saying which
keys reject writes (quota exceeded / storage disabled). Reads and removals
never fail in the DOM storage API; setItem may throw. -/
structure Store where
  entries : List (String × String)
  writeFails : String → Bool

/-- localStorage.getItem. -/
def Store.get (st : Store) (k : String) : Option String :=
  lookupEntry st.entries k

/-- localStorage.setItem; Except.error models a thrown QuotaExceededError. -/
def Store.set (st : Store) (k v : String) : Except Unit Store :=
  if st.writeFails k then Except.error ()
  else Except.ok ⟨(k, v) :: eraseEntry st.entries k, st.writeFails⟩

/-- localStorage.removeItem. -/
def Store.remove (st : Store) (k : String) : Store :=
  ⟨eraseEntry st.entries k, st.writeFails⟩

/-- Object.keys(localStorage). -/
def Store.keys (st : Store) : List String :=
  st.entries.map Prod.fst

/-- The cipher pipeline of the component.  encode is the composition
this.encrypt(JSON.stringify(sd)) of setItem; decode is the composition
JSON.parse(this.decrypt(s)) of getItem.  A none result models a thrown
error, caught by the try/catch of the calling operation. -/
structure Crypto where
  encode : StoredData → Option String
  decode : String → Option StoredData

/-- The expiry computation of setItem:
expiresAt = expiresIn ? Date.now() + expiresIn : undefined.
A ttl of 0 is falsy in JavaScript, so it yields no expiry. -/
def computeExpiresAt (now : Nat) : Option Nat → Option Nat
  | none => none
  | some ttl => if ttl = 0 then none else some (now + ttl)

/-- SecureStorage.setItem (lines 158-172).  The try block builds the record,
encrypts it and writes it under the namespaced key secure_ ++ key; on any
thrown error (encryption failure or store write failure) the catch block
writes the raw value under the plain key, and a failure of that fallback
write propagates to the caller. -/
def setItem (c : Crypto) (now : Nat) (st : Store) (key value : String)
    (expiresIn : Option Nat) : Except Unit Store :=
  match c.encode ⟨value, computeExpiresAt now expiresIn⟩ with
  | some enc =>
    match st.set ("secure_" ++ key) enc with
    | Except.ok st2 => Except.ok st2
    | Except.error _ => st.set key value
  | none => st.set key value

/-- SecureStorage.removeItem (lines 207-211): removes the namespaced entry
and also the plain legacy entry. -/
def removeItem (st : Store) (key : String) : Store :=
  (st.remove ("secure_" ++ key)).remove key

/-- SecureStorage.getItem (lines 179-201).  Returns the result value
together with the store after the call (getItem deletes expired records).
The source checks if (!encrypted), which is also true for an empty string;
decryption or parse failure is caught and falls back to the plain key; the
expiry test if (storedData.expiresAt && Date.now() > storedData.expiresAt)
is a truthiness test, so a zero timestamp is not treated as expired. -/
def getItem (c : Crypto) (now : Nat) (st : Store) (key : String) :
    Option String × Store :=
  match st.get ("secure_" ++ key) with
  | none => (st.get key, st)
  | some enc =>
    if enc = "" then (st.get key, st)
    else
      match c.decode enc with
      | none => (st.get key, st)
      | some sd =>
        match sd.expiresAt with
        | none => (some sd.data, st)
        | some exp =>
          if exp ≠ 0 ∧ now > exp then (none, removeItem st key)
          else (some sd.data, st)

/-- JavaScript String.prototype.startsWith, on the character lists of the
strings. -/
def jsStartsWith (s p : String) : Bool :=
  p.data.isPrefixOf s.data

/-- Helper for jsReplaceFirst: replace the first occurrence of pat in the
character list. -/
def replaceFirstAux (pat repl : List Char) : List Char → List Char
  | [] => []
  | c :: rest =>
    if pat.isPrefixOf (c :: rest) then repl ++ (c :: rest).drop pat.length
    else c :: replaceFirstAux pat repl rest

/-- JavaScript String.prototype.replace with a string pattern: replaces
only the first occurrence. -/
def jsReplaceFirst (s pat repl : String) : String :=
  ⟨replaceFirstAux pat.data repl.data s.data⟩

/-- SecureStorage.clear (lines 216-223): snapshot the keys, then remove
every key starting with the namespace. -/
def clear (st : Store) : Store :=
  st.keys.foldl
    (fun acc key => if jsStartsWith key "secure_" then acc.remove key else acc)
    st

/-- The mutable state of the promise-memoized key derivation
(fields encryptionKey and keyPromise of the class, lines 35-36), together
with a counter of how many derivation computations have been started.
encryptionKey abstracts the derived CryptoKey to its presence; keyPromise
records whether an in-flight derivation promise exists. -/
structure KeyState where
  encryptionKey : Option Unit
  keyPromise : Bool
  derivations : Nat
deriving DecidableEq

/-- One call to SecureStorage.getEncryptionKey (lines 43-87) as a state
transition: return the cached key if present; else join the in-flight
promise if one exists; else start a new derivation (incrementing the
counter) and record its promise. -/
def getEncryptionKey (s : KeyState) : KeyState :=
  match s.encryptionKey with
  | some _ => s
  | none =>
    if s.keyPromise then s
    else ⟨none, true, s.derivations + 1⟩

/-- Completion of the in-flight derivation: the async body assigns
this.encryptionKey = key (line 78). -/
def completeDerivation (s : KeyState) : KeyState :=
  ⟨some (), s.keyPromise, s.derivations⟩

/-- The initial state of the singleton: no cached key, no in-flight
promise, no derivation performed. -/
def initState : KeyState := ⟨none, false, 0⟩

/-- The PBKDF2 parameters passed to crypto.subtle.deriveKey
(lines 64-71). -/
structure KdfConfig where
  algorithm : String
  hash : String
  saltString : String
  iterations : Nat
deriving DecidableEq

/-- The derived-key specification passed to crypto.subtle.deriveKey
(lines 72-76): target algorithm and length, extractability, and the
allowed usages. -/
structure DerivedKeySpec where
  algorithm : String
  length : Nat
  extractable : Bool
  usages : List String
deriving DecidableEq

/-- The concrete key-derivation configuration of getEncryptionKey:
PBKDF2 over SHA-256 with the fixed salt auth-module-salt and 100000
iterations. -/
def kdfConfig : KdfConfig := ⟨"PBKDF2", "SHA-256", "auth-module-salt", 100000⟩

/-- The concrete derived-key specification of getEncryptionKey: a
non-extractable 256-bit AES-GCM key usable for encrypt and decrypt only. -/
def derivedKeySpec : DerivedKeySpec := ⟨"AES-GCM", 256, false, ["encrypt", "decrypt"]⟩

/- Lemmas about the store model. -/

theorem lookupEntry_cons_self (l : List (String × String)) (k v : String) :
    lookupEntry ((k, v) :: l) k = some v := by
  simp [lookupEntry]

theorem lookupEntry_eraseEntry_self (l : List (String × String)) (k : String) :
    lookupEntry (eraseEntry l k) k = none := by
  induction l with
  | nil => rfl
  | cons p rest ih =>
    obtain ⟨a, b⟩ := p
    by_cases h : a = k
    · simp [eraseEntry, h, ih]
    · simp [eraseEntry, lookupEntry, h, ih]

theorem lookupEntry_eraseEntry_ne (l : List (String × String)) (a b : String)
    (h : a ≠ b) : lookupEntry (eraseEntry l a) b = lookupEntry l b := by
  induction l with
  | nil => rfl
  | cons p rest ih =>
    obtain ⟨x, y⟩ := p
    by_cases hx : x = a
    · subst hx
      simp [eraseEntry, lookupEntry, h, ih]
    · by_cases hb : x = b
      · subst hb
        simp [eraseEntry, lookupEntry, hx]
      · simp [eraseEntry, lookupEntry, hx, hb, ih]

theorem eraseEntry_idem (l : List (String × String)) (k : String) :
    eraseEntry (eraseEntry l k) k = eraseEntry l k := by
  induction l with
  | nil => rfl
  | cons p rest ih =>
    obtain ⟨a, b⟩ := p
    by_cases h : a = k
    · simp [eraseEntry, h, ih]
    · simp [eraseEntry, h, ih]

theorem eraseEntry_comm (l : List (String × String)) (a b : String) :
    eraseEntry (eraseEntry l a) b = eraseEntry (eraseEntry l b) a := by
  induction l with
  | nil => rfl
  | cons p rest ih =>
    obtain ⟨x, y⟩ := p
    by_cases ha : x = a
    · subst ha
      by_cases hb : x = b
      · subst hb
        simp [eraseEntry, ih]
      · simp [eraseEntry, hb, ih]
    · by_cases hb : x = b
      · subst hb
        simp [eraseEntry, ha, ih]
      · simp [eraseEntry, ha, hb, ih]

/-- The namespaced key is never equal to the plain key: the prefix makes
it strictly longer. -/
theorem secure_key_ne (k : String) : "secure_" ++ k ≠ k := by
  intro h
  have hlen : ("secure_" ++ k).length = k.length := congrArg String.length h
  rw [String.length_append] at hlen
  have h7 : ("secure_" : String).length = 7 := by decide
  rw [h7] at hlen
  omega

theorem Store.get_remove_self (st : Store) (k : String) :
    (st.remove k).get k = none := by
  simp [Store.get, Store.remove, lookupEntry_eraseEntry_self]

theorem Store.get_remove_ne (st : Store) (a b : String) (h : a ≠ b) :
    (st.remove a).get b = st.get b := by
  simp [Store.get, Store.remove, lookupEntry_eraseEntry_ne _ _ _ h]

/-- After removeItem, the namespaced entry is gone. -/
theorem removeItem_get_secure (st : Store) (k : String) :
    (removeItem st k).get ("secure_" ++ k) = none := by
  unfold removeItem
  rw [Store.get_remove_ne _ _ _ (fun h => secure_key_ne k h.symm),
    Store.get_remove_self]

/-- After removeItem, the plain legacy entry is gone. -/
theorem removeItem_get_plain (st : Store) (k : String) :
    (removeItem st k).get k = none := by
  unfold removeItem
  rw [Store.get_remove_self]

/-- getItem on a store holding neither entry for the key returns null and
leaves the store unchanged. -/
theorem getItem_of_absent (c : Crypto) (now : Nat) (st : Store) (k : String)
    (hsec : st.get ("secure_" ++ k) = none) (hplain : st.get k = none) :
    getItem c now st k = (none, st) := by
  unfold getItem
  rw [hsec, hplain]

/-- Shared round-trip core: when the ttl computes to no expiry, the
cipher round-trips the record with a non-empty ciphertext, and the
namespaced write succeeds, setItem stores the record and a later getItem
recovers the value. -/
theorem setItem_get_of_no_expiry (c : Crypto) (now now2 : Nat) (st : Store)
    (k v e : String) (ttl : Option Nat)
    (hexp : computeExpiresAt now ttl = none)
    (henc : c.encode ⟨v, none⟩ = some e) (hne : e ≠ "")
    (hdec : c.decode e = some ⟨v, none⟩)
    (hw : st.writeFails ("secure_" ++ k) = false) :
    ∃ st2, setItem c now st k v ttl = Except.ok st2 ∧
      (getItem c now2 st2 k).1 = some v := by
  refine ⟨⟨("secure_" ++ k, e) :: eraseEntry st.entries ("secure_" ++ k),
    st.writeFails⟩, ?_, ?_⟩
  · simp [setItem, hexp, henc, Store.set, hw]
  · simp [getItem, Store.get, lookupEntry, hne, hdec]

/-- Shared expiry core: a namespaced record holding a nonzero expiry
strictly below the current time makes getItem delete both entries and
return null. -/
theorem getItem_expired (c : Crypto) (now : Nat) (st : Store)
    (k enc d : String) (exp : Nat)
    (hget : st.get ("secure_" ++ k) = some enc) (hne : enc ≠ "")
    (hdec : c.decode enc = some ⟨d, some exp⟩)
    (hexp0 : exp ≠ 0) (hlt : exp < now) :
    getItem c now st k = (none, removeItem st k) := by
  unfold getItem
  rw [hget]
  simp [hne, hdec, hexp0, hlt]

/-- Every call after the first, while the derivation is still in flight,
joins the existing promise: the state stays at one started derivation. -/
theorem getEncryptionKey_iterate_start (n : Nat) :
    getEncryptionKey^[n + 1] initState = ⟨none, true, 1⟩ := by
  induction n with
  | zero => rfl
  | succ m ih =>
    rw [Function.iterate_succ_apply', ih]
    rfl

/-- Once the key is cached, getEncryptionKey is the identity, for any
number of further calls. -/
theorem getEncryptionKey_iterate_cached (b : Bool) (d m : Nat) :
    getEncryptionKey^[m] ⟨some (), b, d⟩ = ⟨some (), b, d⟩ := by
  induction m with
  | zero => rfl
  | succ p ih =>
    rw [Function.iterate_succ_apply', ih]
    rfl

/-- Modelled from the spec: the remove operation of the third-party
SecureLS library (the Storage Backend collaborator of spec section 6,
synchronous remove over string keys) deletes the entry stored under the
given key name. -/
def lsRemove (st : Store) (k : String) : Store :=
  st.remove k

/-- SecureStorage.clear of the SecureLS variant (lines 322-337): for every
snapshot key starting with secure-ls or with the secure_ namespace, it
calls the library remove on
key.replace('secure-ls.', '').replace(this.prefix, ''), i.e. on the
prefix-stripped key name. -/
def clearLS (st : Store) : Store :=
  st.keys.foldl
    (fun acc key =>
      if jsStartsWith key "secure-ls" || jsStartsWith key "secure_" then
        lsRemove acc (jsReplaceFirst (jsReplaceFirst key "secure-ls." "") "secure_" "")
      else acc)
    st

/- Concrete fixtures used by witnesses and counterexamples. -/

/-- An empty, fully writable backing store. -/
def st0 : Store := ⟨[], fun _ => false⟩

/-- A backing store rejecting every write (quota exceeded / disabled). -/
def stAllFail : Store := ⟨[], fun _ => true⟩

/-- A cipher that round-trips the single record (v, no expiry) through
the ciphertext CT. -/
def c1c : Crypto :=
  ⟨fun sd => if sd = ⟨"v", none⟩ then some "CT" else none,
   fun s => if s = "CT" then some ⟨"v", none⟩ else none⟩

/-- A cipher whose encryption always fails (crypto API unavailable). -/
def cNone : Crypto := ⟨fun _ => none, fun _ => none⟩

/-- A cipher decoding CT to a record whose expiresAt is the epoch
timestamp 0. -/
def cExp0 : Crypto :=
  ⟨fun _ => none, fun s => if s = "CT" then some ⟨"v", some 0⟩ else none⟩

/-- A store holding only the namespaced ciphertext CT for key k. -/
def stExp0 : Store := ⟨[("secure_" ++ "k", "CT")], fun _ => false⟩

/-- A cipher decoding CT to a record expiring at timestamp 5. -/
def cExp5 : Crypto :=
  ⟨fun _ => none, fun s => if s = "CT" then some ⟨"v", some 5⟩ else none⟩

/-- A store holding the namespaced ciphertext CT for key k together with
a legacy plaintext entry under the bare key k. -/
def stExp : Store :=
  ⟨[("secure_" ++ "k", "CT"), ("k", "legacy")], fun _ => false⟩

/-- A cipher whose decryption always fails (corrupt or foreign record). -/
def cDecNone : Crypto := ⟨fun _ => some "x", fun _ => none⟩

/-- A store holding garbage bytes under the namespaced key for k. -/
def stGarbage : Store := ⟨[("secure_" ++ "k", "garbage")], fun _ => false⟩

/-- A store holding one managed entry secure_b, the bare key b written
outside the component, and an unrelated key z. -/
def stClear : Store :=
  ⟨[("secure_b", "CT"), ("b", "unrelated"), ("z", "other")], fun _ => false⟩

/-- C1: for every key k and string value v, setItem(k, v) with no TTL
followed by getItem(k) returns exactly v, under the cipher-provider
contract (encoding the record succeeds with a non-empty ciphertext that
decodes back to the record) and a store accepting the namespaced write. -/
theorem C1_round_trip (c : Crypto) (now now2 : Nat) (st : Store)
    (k v e : String)
    (henc : c.encode ⟨v, none⟩ = some e) (hne : e ≠ "")
    (hdec : c.decode e = some ⟨v, none⟩)
    (hw : st.writeFails ("secure_" ++ k) = false) :
    ∃ st2, setItem c now st k v none = Except.ok st2 ∧
      (getItem c now2 st2 k).1 = some v :=
  setItem_get_of_no_expiry c now now2 st k v e none rfl henc hne hdec hw

/-- Witness for C1 at concrete inputs. -/
theorem C1_round_trip_witness :
    ∃ st2, setItem c1c 0 st0 "k" "v" none = Except.ok st2 ∧
      (getItem c1c 5 st2 "k").1 = some "v" :=
  C1_round_trip c1c 0 5 st0 "k" "v" "CT" (by decide) (by decide) (by decide) rfl

/-- C2 counterexample: a stored record whose expiresAt timestamp 0 has
passed at read time 100, yet getItem returns its value and leaves the
record in the store, because the truthiness test
(storedData.expiresAt && ...) skips a zero timestamp. -/
theorem C2_counterexample :
    (0 : Nat) < 100 ∧
    (getItem cExp0 100 stExp0 "k").1 = some "v" ∧
    ((getItem cExp0 100 stExp0 "k").2).get ("secure_" ++ "k") = some "CT" :=
  ⟨by decide, by decide, by decide⟩

/-- C2 (amended): for every key whose stored record has a nonzero
expiresAt timestamp that has passed at read time, getItem deletes the
record from the backing store and returns null, never the value. -/
theorem C2_expired_record_deleted (c : Crypto) (now : Nat) (st : Store)
    (k enc d : String) (exp : Nat)
    (hget : st.get ("secure_" ++ k) = some enc) (hne : enc ≠ "")
    (hdec : c.decode enc = some ⟨d, some exp⟩)
    (hexp0 : exp ≠ 0) (hlt : exp < now) :
    getItem c now st k = (none, removeItem st k) ∧
    ((getItem c now st k).2).get ("secure_" ++ k) = none := by
  have hmain := getItem_expired c now st k enc d exp hget hne hdec hexp0 hlt
  refine ⟨hmain, ?_⟩
  rw [hmain]
  exact removeItem_get_secure st k

/-- Witness for the amended C2 at concrete inputs. -/
theorem C2_expired_record_deleted_witness :
    getItem cExp5 10 stExp "k" = (none, removeItem stExp "k") ∧
    ((getItem cExp5 10 stExp "k").2).get ("secure_" ++ "k") = none :=
  C2_expired_record_deleted cExp5 10 stExp "k" "CT" "v" 5
    (by decide) (by decide) (by decide) (by decide) (by decide)

/-- C3: if encryption of the record fails, setItem falls back to storing
the raw value under the plain key and completes successfully (when that
write is accepted); if the backing store rejects both the namespaced and
the plain write, setItem fails with an error to the caller. -/
theorem C3_degraded_write (c : Crypto) (now : Nat) (st : Store)
    (k v : String) (ttl : Option Nat) :
    (c.encode ⟨v, computeExpiresAt now ttl⟩ = none →
      st.writeFails k = false →
      ∃ st2, setItem c now st k v ttl = Except.ok st2 ∧
        st2.get k = some v) ∧
    (st.writeFails ("secure_" ++ k) = true → st.writeFails k = true →
      setItem c now st k v ttl = Except.error ()) := by
  constructor
  · intro henc hw
    refine ⟨⟨(k, v) :: eraseEntry st.entries k, st.writeFails⟩, ?_, ?_⟩
    · simp [setItem, henc, Store.set, hw]
    · simp [Store.get, lookupEntry]
  · intro hsec hplain
    unfold setItem
    cases hc : c.encode ⟨v, computeExpiresAt now ttl⟩ with
    | none => simp [Store.set, hplain]
    | some enc => simp [Store.set, hsec, hplain]

/-- Witness for C3 at concrete inputs: a failing cipher with a writable
store stores the raw value; a store rejecting all writes makes setItem
fail. -/
theorem C3_degraded_write_witness :
    (∃ st2, setItem cNone 0 st0 "k" "v" none = Except.ok st2 ∧
      st2.get "k" = some "v") ∧
    setItem cNone 0 stAllFail "k" "v" none = Except.error () :=
  ⟨(C3_degraded_write cNone 0 st0 "k" "v" none).1 rfl rfl,
   (C3_degraded_write cNone 0 stAllFail "k" "v" none).2 rfl rfl⟩

/-- C4: when the namespaced entry is absent or decryption/parsing of it
fails, getItem does not throw and returns exactly the plain-key fallback
lookup (the stored plain value if present, null otherwise), leaving the
store unchanged. -/
theorem C4_decrypt_failure_fallback (c : Crypto) (now : Nat) (st : Store)
    (k : String)
    (h : ∀ enc, st.get ("secure_" ++ k) = some enc → c.decode enc = none) :
    getItem c now st k = (st.get k, st) := by
  unfold getItem
  cases hsec : st.get ("secure_" ++ k) with
  | none => rfl
  | some enc =>
    by_cases he : enc = ""
    · simp [he]
    · simp [he, h enc hsec]

/-- Witness for C4 at a concrete garbage record. -/
theorem C4_decrypt_failure_fallback_witness :
    getItem cDecNone 0 stGarbage "k" = (Store.get stGarbage "k", stGarbage) ∧
    Store.get stGarbage "k" = none :=
  ⟨C4_decrypt_failure_fallback cDecNone 0 stGarbage "k" (fun _ _ => rfl),
   by decide⟩

/-- C5: any positive number n of getEncryptionKey calls issued before the
first derivation completes starts exactly one derivation, and after the
derived key is cached any further m calls keep the derivation count at
one (the cached key is reused, no re-derivation). -/
theorem C5_single_flight (n m : Nat) (h : 1 ≤ n) :
    (getEncryptionKey^[n] initState).derivations = 1 ∧
    (getEncryptionKey^[m]
      (completeDerivation (getEncryptionKey^[n] initState))).derivations = 1 := by
  obtain ⟨p, rfl⟩ : ∃ p, n = p + 1 := ⟨n - 1, by omega⟩
  rw [getEncryptionKey_iterate_start]
  constructor
  · rfl
  · show (getEncryptionKey^[m] ⟨some (), true, 1⟩).derivations = 1
    rw [getEncryptionKey_iterate_cached]

/-- Witness for C5 at concrete call counts. -/
theorem C5_single_flight_witness :
    (getEncryptionKey^[2] initState).derivations = 1 ∧
    (getEncryptionKey^[3]
      (completeDerivation (getEncryptionKey^[2] initState))).derivations = 1 :=
  C5_single_flight 2 3 (by decide)

/-- C6: evaluation at the failing input.  The primary clear removes the
managed entry secure_b and leaves the unrelated keys b and z untouched,
as the claim states; the SecureLS-variant clear instead calls the library
remove on the prefix-stripped name, so it leaves the managed entry
secure_b in the store and deletes the unrelated bare key b. -/
theorem C6_clear_variants :
    Store.get (clear stClear) "secure_b" = none ∧
    Store.get (clear stClear) "b" = some "unrelated" ∧
    Store.get (clear stClear) "z" = some "other" ∧
    Store.get (clearLS stClear) "secure_b" = some "CT" ∧
    Store.get (clearLS stClear) "b" = none :=
  ⟨by decide, by decide, by decide, by decide, by decide⟩

/-- C7: removeItem deletes both the namespaced and the plain legacy entry,
is idempotent, and a subsequent getItem returns null; it is total, so
removing a never-set key is not an error. -/
theorem C7_remove_item (st : Store) (k : String) (c : Crypto) (now : Nat) :
    (removeItem st k).get ("secure_" ++ k) = none ∧
    (removeItem st k).get k = none ∧
    removeItem (removeItem st k) k = removeItem st k ∧
    getItem c now (removeItem st k) k = (none, removeItem st k) := by
  refine ⟨removeItem_get_secure st k, removeItem_get_plain st k, ?_, ?_⟩
  · show Store.mk
      (eraseEntry (eraseEntry (eraseEntry (eraseEntry st.entries
        ("secure_" ++ k)) k) ("secure_" ++ k)) k) st.writeFails
      = Store.mk (eraseEntry (eraseEntry st.entries ("secure_" ++ k)) k)
        st.writeFails
    rw [eraseEntry_comm (eraseEntry st.entries ("secure_" ++ k)) k
      ("secure_" ++ k), eraseEntry_idem, eraseEntry_idem]
  · exact getItem_of_absent c now (removeItem st k) k
      (removeItem_get_secure st k) (removeItem_get_plain st k)

/-- C8: the key derivation uses PBKDF2 over SHA-256 with the fixed
application-level salt auth-module-salt and at least 100000 iterations,
and derives a non-extractable 256-bit AES-GCM key usable only for
encrypt and decrypt. -/
theorem C8_key_derivation_parameters :
    kdfConfig.algorithm = "PBKDF2" ∧ kdfConfig.hash = "SHA-256" ∧
    kdfConfig.saltString = "auth-module-salt" ∧
    100000 ≤ kdfConfig.iterations ∧
    derivedKeySpec.algorithm = "AES-GCM" ∧ derivedKeySpec.length = 256 ∧
    derivedKeySpec.extractable = false ∧
    derivedKeySpec.usages = ["encrypt", "decrypt"] :=
  ⟨rfl, rfl, rfl, by decide, rfl, rfl, rfl, rfl⟩

/-- C9: a TTL of 0 is falsy, so setItem(k, v, 0) stores a record with no
expiresAt, and getItem at any later time returns v. -/
theorem C9_zero_ttl_no_expiry (c : Crypto) (now now2 : Nat) (st : Store)
    (k v e : String)
    (henc : c.encode ⟨v, none⟩ = some e) (hne : e ≠ "")
    (hdec : c.decode e = some ⟨v, none⟩)
    (hw : st.writeFails ("secure_" ++ k) = false) :
    computeExpiresAt now (some 0) = none ∧
    ∃ st2, setItem c now st k v (some 0) = Except.ok st2 ∧
      (getItem c now2 st2 k).1 = some v :=
  ⟨rfl, setItem_get_of_no_expiry c now now2 st k v e (some 0) rfl henc hne hdec hw⟩

/-- Witness for C9 at concrete inputs, reading far in the future. -/
theorem C9_zero_ttl_no_expiry_witness :
    computeExpiresAt 0 (some 0) = none ∧
    ∃ st2, setItem c1c 0 st0 "k" "v" (some 0) = Except.ok st2 ∧
      (getItem c1c 1000000 st2 "k").1 = some "v" :=
  C9_zero_ttl_no_expiry c1c 0 1000000 st0 "k" "v" "CT"
    (by decide) (by decide) (by decide) rfl

/-- C10: when getItem detects an expired record, its deletion goes through
removeItem, so a legacy plaintext value under the bare key k is destroyed
as well, and a subsequent getItem returns null rather than the legacy
value. -/
theorem C10_expiry_destroys_legacy (c : Crypto) (now now2 : Nat)
    (st : Store) (k enc d w : String) (exp : Nat)
    (hget : st.get ("secure_" ++ k) = some enc) (hne : enc ≠ "")
    (hdec : c.decode enc = some ⟨d, some exp⟩)
    (hexp0 : exp ≠ 0) (hlt : exp < now)
    (hleg : st.get k = some w) :
    (getItem c now st k).2 = removeItem st k ∧
    (removeItem st k).get k = none ∧
    getItem c now2 (removeItem st k) k = (none, removeItem st k) := by
  refine ⟨?_, removeItem_get_plain st k, ?_⟩
  · rw [getItem_expired c now st k enc d exp hget hne hdec hexp0 hlt]
  · exact getItem_of_absent c now2 (removeItem st k) k
      (removeItem_get_secure st k) (removeItem_get_plain st k)

/-- Witness for C10 at concrete inputs: the legacy entry under the bare
key is destroyed together with the expired record. -/
theorem C10_expiry_destroys_legacy_witness :
    (getItem cExp5 10 stExp "k").2 = removeItem stExp "k" ∧
    (removeItem stExp "k").get "k" = none ∧
    getItem cExp5 20 (removeItem stExp "k") "k" = (none, removeItem stExp "k") :=
  C10_expiry_destroys_legacy cExp5 10 20 stExp "k" "CT" "v" "legacy" 5
    (by decide) (by decide) (by decide) (by decide) (by decide) (by decide)

end SecureStorage
